import Mathlib

/-!
Shallow embedding of the KYC Gateway verification issuance pipeline
(Express server: SQLite status store, submit / status endpoints, and the
asynchronous on-chain processing routine) together with the attestation
digest construction, and of the frontend status query.

The SQLite table `verifications (wallet TEXT PRIMARY KEY, hash TEXT,
expiry INTEGER, txHash TEXT, status TEXT)` is modelled as an association
list from wallet strings to records; each single SQL statement
(SELECT / UPDATE / INSERT OR REPLACE) is one atomic operation on that
list, matching SQLite's per-statement atomicity.  The interleaving of
the event-loop (the SELECT of a submit request and the later INSERT run
by its callback are separate queued statements, and each scheduled
processVerification issues its own UPDATE) is modelled by an explicit
event-trace executor `run`.
-/

namespace KycVault

/-- Lifecycle states actually written to the `status` column by the server:
the submit handler writes Pending, processVerification writes Verified or
Failed.  Absence of a row plays the role of the None state. -/
inductive Status where
  | Pending
  | Verified
  | Failed
deriving DecidableEq, Repr

/-- String stored in the `status` column / returned in JSON responses. -/
def statusString : Status → String
  | .Pending => "Pending"
  | .Verified => "Verified"
  | .Failed => "Failed"

/-- One row of the `verifications` table (the wallet key lives in the store);
hash, expiry and txHash are nullable columns. -/
structure VerificationRecord where
  hash : Option String
  expiry : Option Nat
  txHash : Option String
  status : Status
deriving DecidableEq, Repr

/-- The `verifications` table: wallet is the primary key. -/
abbrev Store : Type := List (String × VerificationRecord)

/-- SELECT ... FROM verifications WHERE wallet = w (db.get returns one row). -/
def dbLookup (s : Store) (w : String) : Option VerificationRecord :=
  (s.find? (fun p => p.1 == w)).map (fun p => p.2)

/-- INSERT OR REPLACE INTO verifications (wallet, status) VALUES (w, 'Pending'):
the unnamed columns hash, expiry, txHash become NULL. -/
def insertPending (s : Store) (w : String) : Store :=
  (w, ⟨none, none, none, .Pending⟩) :: s.filter (fun p => p.1 != w)

/-- UPDATE verifications SET status='Verified', hash=h, expiry=e, txHash=t
WHERE wallet = w: one atomic statement setting the four columns together
on every row whose wallet matches; rows of other wallets are untouched,
and with no matching row the statement changes nothing. -/
def updateVerified (s : Store) (w h : String) (e : Nat) (t : String) : Store :=
  s.map (fun p => if p.1 == w then (p.1, ⟨some h, some e, some t, .Verified⟩) else p)

/-- UPDATE verifications SET status='Failed' WHERE wallet = w: sets only the
status column; hash, expiry, txHash of the row are left as they were. -/
def updateFailed (s : Store) (w : String) : Store :=
  s.map (fun p => if p.1 == w then (p.1, { p.2 with status := Status.Failed }) else p)

/-- Hexadecimal digit character: 0-9, a-f or A-F. -/
def isHexDigitChar (c : Char) : Bool :=
  c.isDigit || (97 ≤ c.toNat && c.toNat ≤ 102) || (65 ≤ c.toNat && c.toNat ≤ 70)

/-- Modelled from the spec: the external library call ethers.isAddress, the
syntactic format check for an identity (an opaque, fixed-format address-like
token): a 0x-prefixed string of 40 hexadecimal digits.  (The library's
EIP-55 checksum verification of mixed-case addresses is an internal detail
of the external dependency and is not modelled; every claim uses this check
only as a boolean validity predicate.) -/
def isAddress (s : String) : Bool :=
  match s.data with
  | '0' :: 'x' :: rest => rest.length == 40 && rest.all isHexDigitChar
  | _ => false

/-! Attestation codec: ethers.solidityPackedKeccak256 with types
['address', 'address', 'uint256'] packs the issuer address (20 bytes),
the subject address (20 bytes) and the expiry (32 bytes), each big-endian,
in that order, and hashes the 72-byte sequence with keccak-256.  The
keccak-256 compression itself is an external library primitive, taken as
a function parameter; the packing is modelled exactly. -/

/-- Big-endian fixed-width byte encoding of a natural number
(the low `w` bytes of `n`). -/
def beBytes : Nat → Nat → List Nat
  | 0, _ => []
  | w + 1, n => beBytes w (n / 256) ++ [n % 256]

/-- Packed encoding of ethers.solidityPacked(['address','address','uint256'],
[issuer, subject, expiry]): 20 + 20 + 32 big-endian bytes, in field order. -/
def solidityPacked (issuer subject expiry : Nat) : List Nat :=
  beBytes 20 issuer ++ beBytes 20 subject ++ beBytes 32 expiry

/-- Verification hash of createVerificationPayload: keccak-256 of the packed
encoding of (issuer address, subject wallet, expiry), with the keccak-256
primitive abstract (an arbitrary function from byte sequences to hex
digest strings). -/
def buildDigest (keccak : List Nat → String) (issuer subject expiry : Nat) : String :=
  keccak (solidityPacked issuer subject expiry)

/-- Numeric value of one hexadecimal digit character. -/
def hexDigitVal (c : Char) : Nat :=
  if c.isDigit then c.toNat - 48
  else if 97 ≤ c.toNat then c.toNat - 87
  else c.toNat - 55

/-- Numeric value of a 0x-prefixed hexadecimal string (how the external
library reads a 20-byte address out of its string form). -/
def hexVal (s : String) : Nat :=
  (s.data.drop 2).foldl (fun a c => 16 * a + hexDigitVal c) 0

/-! The submit endpoint, the asynchronous processing routine and the
status endpoint. -/

/-- Responses of POST /kyc/submit: 400 (missing or invalid walletAddress),
409 with the current status in the message, or 202 with status Pending. -/
inductive SubmitResp where
  | badRequest
  | conflict (current : Status)
  | accepted
deriving DecidableEq, Repr

/-- HTTP status code of each submit response. -/
def SubmitResp.code : SubmitResp → Nat
  | .badRequest => 400
  | .conflict _ => 409
  | .accepted => 202

/-- Decision the submit callback takes from the SELECTed row: reject with 409
when a row exists with status Pending or Verified, otherwise proceed. -/
def submitDecision (row : Option Status) : SubmitResp :=
  match row with
  | some .Pending => .conflict .Pending
  | some .Verified => .conflict .Verified
  | _ => .accepted

/-- The POST /kyc/submit handler run as one uninterrupted unit: validate the
body's walletAddress (missing or empty or malformed gives 400 before any
database access), SELECT the row, reject 409 on Pending/Verified, otherwise
INSERT OR REPLACE a Pending row and schedule processVerification for the
wallet.  Returns (response, store after, wallets newly scheduled). -/
def submitHandler (s : Store) (body : Option String) : SubmitResp × Store × List String :=
  match body with
  | none => (.badRequest, s, [])
  | some w =>
    if w == "" || !(isAddress w) then (.badRequest, s, [])
    else
      match submitDecision ((dbLookup s w).map (fun r => r.status)) with
      | .accepted => (.accepted, insertPending s w, [w])
      | d => (d, s, [])

/-- Result of the on-chain interaction inside processVerification:
the addVerification transaction is sent and confirmed (carrying tx.hash), or
some step throws — the send is rejected, tx.wait() reports a revert, or the
provider times out.  The try/catch treats every thrown error alike. -/
inductive Outcome where
  | confirmed (txHash : String)
  | submissionError
  | reverted
  | timeout
deriving DecidableEq, Repr

/-- Validity window added to the processing-time clock:
365 * 24 * 60 * 60 seconds (one year). -/
def oneYear : Nat := 365 * 24 * 60 * 60

/-- processVerification(walletAddress) with the ledger interaction's outcome
and the value of Math.floor(Date.now()/1000) as explicit inputs: on a
confirmed transaction one UPDATE sets status Verified together with the
digest, expiry = now + one year and tx.hash; on any thrown error the catch
block's UPDATE sets status Failed.  The routine returns nothing to any
caller; its only effect is the store update. -/
def processVerification (keccak : List Nat → String) (issuer : Nat) (s : Store)
    (w : String) (now : Nat) (o : Outcome) : Store :=
  match o with
  | .confirmed tx =>
    updateVerified s w (buildDigest keccak issuer (hexVal w) (now + oneYear)) (now + oneYear) tx
  | _ => updateFailed s w

/-- JSON body of a 200 response of GET /kyc/status/:wallet. -/
structure StatusBody where
  status : String
  expiry : Option Nat
  txHash : Option String
deriving DecidableEq, Repr

/-- Responses of GET /kyc/status/:wallet: 400 on a malformed wallet, else 200. -/
inductive StatusResp where
  | badRequest
  | ok (body : StatusBody)
deriving DecidableEq, Repr

/-- JavaScript `v || null` on a nullable integer column: NULL stays null and
the falsy value 0 also becomes null. -/
def orNullNat : Option Nat → Option Nat
  | some e => if e == 0 then none else some e
  | none => none

/-- JavaScript `v || null` on a nullable text column: NULL stays null and the
falsy empty string also becomes null. -/
def orNullStr : Option String → Option String
  | some t => if t == "" then none else some t
  | none => none

/-- The GET /kyc/status/:wallet handler: validate the wallet (400 before any
database access), then one SELECT; with no row respond status None, with a
row respond the row's status together with expiry and txHash (each passed
through `|| null`).  The handler issues no other statement and never
touches the ledger: it is a pure function of the store. -/
def statusHandler (s : Store) (w : String) : StatusResp :=
  if !(isAddress w) then .badRequest
  else
    match dbLookup s w with
    | some r => .ok ⟨statusString r.status, orNullNat r.expiry, orNullStr r.txHash⟩
    | none => .ok ⟨"None", none, none⟩

/-! Event-trace semantics.  In the server a submit request's SELECT and the
INSERT run by its callback are two separately queued statements — other
requests' statements and any scheduled processVerification's UPDATE may be
interleaved between them — while each single statement is atomic.  A system
state carries the table, the row snapshots taken by pending submit
callbacks, the responses sent, and the scheduled processVerification tasks;
an event is one such atomic unit, and a trace is any list of events. -/

/-- One atomic unit of the event loop: the SELECT of submit request `rid`
for wallet `w` (including the synchronous validation that precedes it), the
callback of request `rid` deciding from its snapshot and possibly running
the INSERT, or a scheduled processVerification running with a given clock
and ledger outcome. -/
inductive Ev where
  | subRead (rid : Nat) (w : String)
  | subWrite (rid : Nat)
  | procRun (w : String) (now : Nat) (o : Outcome)

/-- State of the server: the table, the (request id, wallet, status
snapshot) of submit requests whose SELECT has run, the responses sent so
far, and the multiset of scheduled processVerification tasks. -/
structure Sys where
  store : Store
  snaps : List (Nat × String × Option Status)
  responses : List (Nat × SubmitResp)
  scheduled : List String
deriving Repr

/-- Empty database, no request in flight. -/
def initSys : Sys := ⟨[], [], [], []⟩

/-- Effect of one event.  A subRead for a fresh request id validates the
wallet (responding 400 at once when malformed) and records the SELECTed
status; a subWrite decides from the snapshot its SELECT took — not from the
current table — responding 409 or running the INSERT, scheduling the task
and responding 202; a procRun consumes one scheduled task for its wallet
and applies processVerification.  Events with no matching pending request
or scheduled task change nothing. -/
def step (keccak : List Nat → String) (issuer : Nat) (s : Sys) (e : Ev) : Sys :=
  match e with
  | .subRead rid w =>
    if (s.snaps.find? (fun p => p.1 == rid)).isSome
        || (s.responses.find? (fun p => p.1 == rid)).isSome then s
    else if w == "" || !(isAddress w) then
      { s with responses := (rid, SubmitResp.badRequest) :: s.responses }
    else
      { s with snaps := (rid, w, (dbLookup s.store w).map (fun r => r.status)) :: s.snaps }
  | .subWrite rid =>
    match s.snaps.find? (fun p => p.1 == rid) with
    | none => s
    | some (_, w, snap) =>
      if (s.responses.find? (fun p => p.1 == rid)).isSome then s
      else
        match submitDecision snap with
        | .accepted =>
          { s with store := insertPending s.store w
                   scheduled := w :: s.scheduled
                   responses := (rid, SubmitResp.accepted) :: s.responses }
        | d => { s with responses := (rid, d) :: s.responses }
  | .procRun w now o =>
    if s.scheduled.contains w then
      { s with scheduled := s.scheduled.erase w
               store := processVerification keccak issuer s.store w now o }
    else s

/-- Run a trace of events from the initial state. -/
def run (keccak : List Nat → String) (issuer : Nat) (evs : List Ev) : Sys :=
  evs.foldl (step keccak issuer) initSys

/-! Frontend status query (index.tsx). -/

/-- getVerificationStatus(walletAddress) with the backend interaction as an
explicit input: `none` when the GET request failed for any reason (axios
throws, landing in the catch), `some none` when the 200 response carries no
status field, `some (some t)` when it carries status string `t`.  A
syntactically invalid wallet address throws before the request and is
caught by the same catch.  The returned value is
`response.data.status || 'Unknown'`, JavaScript truthiness included. -/
def getVerificationStatus (walletAddress : String) (backend : Option (Option String)) : String :=
  if !(isAddress walletAddress) then "None"
  else
    match backend with
    | none => "None"
    | some none => "Unknown"
    | some (some t) => if t == "" then "Unknown" else t

/-- Terminal-field atomicity of a row: the three nullable columns hash,
expiry, txHash are either all NULL or all set. -/
def terminalTogether (r : VerificationRecord) : Prop :=
  (r.hash = none ∧ r.expiry = none ∧ r.txHash = none) ∨
  (∃ h e t, r.hash = some h ∧ r.expiry = some e ∧ r.txHash = some t)

/-- Invariant of a table: every row has its terminal fields together. -/
def storeOK (s : Store) : Prop := ∀ p ∈ s, terminalTogether p.2

/-! Concrete fixtures used to instantiate the theorems. -/

/-- Sample identity: a syntactically valid wallet address. -/
def addrA : String := "0x0000000000000000000000000000000000000001"

/-- Sample instantiation of the abstract keccak-256 primitive. -/
def kcSample : List Nat → String := fun _ => "digesthex"

/-- Row of a prior failed attempt (the state in which resubmission is
allowed). -/
def failedRec : VerificationRecord := ⟨none, none, none, Status.Failed⟩

/-- Row freshly written by an accepted submission. -/
def pendingRec : VerificationRecord := ⟨none, none, none, Status.Pending⟩

/-- Row of a completed verification. -/
def verifiedRec : VerificationRecord :=
  ⟨some ("0xabc"), some 5, some ("0xtx"), Status.Verified⟩

/-- Trace of two submit requests for the same wallet whose SELECTs both run
before either callback: the overlap the event loop permits, since the SELECT
and the callback's INSERT are separately queued statements. -/
def raceEvs : List Ev :=
  [Ev.subRead 0 addrA, Ev.subRead 1 addrA, Ev.subWrite 0, Ev.subWrite 1]

/-! Supporting lemmas. -/

theorem dbLookup_insertPending (s : Store) (w : String) :
    dbLookup (insertPending s w) w = some ⟨none, none, none, Status.Pending⟩ := by
  simp [dbLookup, insertPending, List.find?_cons]

theorem dbLookup_updateVerified (s : Store) (w h : String) (e : Nat) (t : String) :
    dbLookup (updateVerified s w h e t) w =
      (dbLookup s w).map (fun _ => ⟨some h, some e, some t, Status.Verified⟩) := by
  induction s with
  | nil => rfl
  | cons p s ih =>
    cases hq : (p.1 == w) with
    | true =>
      have hp : p.1 = w := by simpa using hq
      simp [dbLookup, updateVerified, List.find?_cons, hp]
    | false =>
      have hp : ¬ p.1 = w := by simpa using hq
      simpa [dbLookup, updateVerified, List.find?_cons, hp, Function.comp] using ih

theorem dbLookup_updateFailed (s : Store) (w : String) :
    dbLookup (updateFailed s w) w =
      (dbLookup s w).map (fun r => { r with status := Status.Failed }) := by
  induction s with
  | nil => rfl
  | cons p s ih =>
    cases hq : (p.1 == w) with
    | true =>
      have hp : p.1 = w := by simpa using hq
      simp [dbLookup, updateFailed, List.find?_cons, hp]
    | false =>
      have hp : ¬ p.1 = w := by simpa using hq
      simpa [dbLookup, updateFailed, List.find?_cons, hp, Function.comp] using ih

theorem dbLookup_eq_none_key (s : Store) (w : String) (hn : dbLookup s w = none) :
    ∀ p ∈ s, (p.1 == w) = false := by
  intro p hp
  simp only [dbLookup, Option.map_eq_none', List.find?_eq_none] at hn
  simpa using hn p hp

theorem dbLookup_mem (s : Store) (w : String) (r : VerificationRecord)
    (hr : dbLookup s w = some r) : ∃ k, (k, r) ∈ s := by
  simp only [dbLookup, Option.map_eq_some'] at hr
  obtain ⟨p, hp, hpr⟩ := hr
  refine ⟨p.1, ?_⟩
  rw [← hpr]
  exact List.mem_of_find?_eq_some hp

theorem updateVerified_absent (s : Store) (w h : String) (e : Nat) (t : String)
    (hn : dbLookup s w = none) : updateVerified s w h e t = s := by
  have hk := dbLookup_eq_none_key s w hn
  unfold updateVerified
  rw [List.map_congr_left (g := id) (fun p hp => by simp [hk p hp]), List.map_id]

theorem updateFailed_absent (s : Store) (w : String)
    (hn : dbLookup s w = none) : updateFailed s w = s := by
  have hk := dbLookup_eq_none_key s w hn
  unfold updateFailed
  rw [List.map_congr_left (g := id) (fun p hp => by simp [hk p hp]), List.map_id]

theorem beBytes_length (w n : Nat) : (beBytes w n).length = w := by
  induction w generalizing n with
  | zero => rfl
  | succ w ih => simp [beBytes, ih]

theorem beBytes_inj (w : Nat) : ∀ n m : Nat, n < 256 ^ w → m < 256 ^ w →
    beBytes w n = beBytes w m → n = m := by
  induction w with
  | zero =>
    intro n m hn hm _
    simp only [pow_zero, Nat.lt_one_iff] at hn hm
    rw [hn, hm]
  | succ w ih =>
    intro n m hn hm heq
    simp only [beBytes] at heq
    have hlen : (beBytes w (n / 256)).length = (beBytes w (m / 256)).length := by
      rw [beBytes_length, beBytes_length]
    obtain ⟨hhi, hlo⟩ := List.append_inj heq hlen
    have hdn : n / 256 < 256 ^ w := by
      rw [Nat.div_lt_iff_lt_mul (by norm_num)]
      calc n < 256 ^ (w + 1) := hn
        _ = 256 ^ w * 256 := by rw [pow_succ]
    have hdm : m / 256 < 256 ^ w := by
      rw [Nat.div_lt_iff_lt_mul (by norm_num)]
      calc m < 256 ^ (w + 1) := hm
        _ = 256 ^ w * 256 := by rw [pow_succ]
    have hdiv : n / 256 = m / 256 := ih _ _ hdn hdm hhi
    have hmod : n % 256 = m % 256 := by simpa using hlo
    calc n = 256 * (n / 256) + n % 256 := (Nat.div_add_mod n 256).symm
      _ = 256 * (m / 256) + m % 256 := by rw [hdiv, hmod]
      _ = m := Nat.div_add_mod m 256

theorem solidityPacked_inj (i1 s1 e1 i2 s2 e2 : Nat)
    (hi1 : i1 < 2 ^ 160) (hs1 : s1 < 2 ^ 160) (he1 : e1 < 2 ^ 256)
    (hi2 : i2 < 2 ^ 160) (hs2 : s2 < 2 ^ 160) (he2 : e2 < 2 ^ 256)
    (heq : solidityPacked i1 s1 e1 = solidityPacked i2 s2 e2) :
    i1 = i2 ∧ s1 = s2 ∧ e1 = e2 := by
  have h160 : (2 : Nat) ^ 160 = 256 ^ 20 := by norm_num
  have h256 : (2 : Nat) ^ 256 = 256 ^ 32 := by norm_num
  rw [h160] at hi1 hs1 hi2 hs2
  rw [h256] at he1 he2
  simp only [solidityPacked] at heq
  obtain ⟨hpre, he⟩ :=
    List.append_inj heq (by simp [List.length_append, beBytes_length])
  obtain ⟨hi, hs⟩ := List.append_inj hpre (by simp [beBytes_length])
  exact ⟨beBytes_inj 20 _ _ hi1 hi2 hi, beBytes_inj 20 _ _ hs1 hs2 hs,
    beBytes_inj 32 _ _ he1 he2 he⟩

theorem storeOK_insertPending (s : Store) (w : String) (hs : storeOK s) :
    storeOK (insertPending s w) := by
  unfold storeOK at hs ⊢
  intro p hp
  rcases List.mem_cons.mp hp with h | h
  · rw [h]; exact Or.inl ⟨rfl, rfl, rfl⟩
  · exact hs p (List.mem_of_mem_filter h)

theorem storeOK_updateVerified (s : Store) (w h : String) (e : Nat) (t : String)
    (hs : storeOK s) : storeOK (updateVerified s w h e t) := by
  unfold storeOK at hs ⊢
  intro p hp
  obtain ⟨q, hq, hpq⟩ := List.mem_map.mp hp
  cases hk : (q.1 == w) with
  | true =>
    rw [← hpq]
    simp only [updateVerified, hk, if_true]
    exact Or.inr ⟨h, e, t, rfl, rfl, rfl⟩
  | false =>
    rw [← hpq]
    simp only [updateVerified, hk, Bool.false_eq_true, if_false]
    exact hs q hq

theorem storeOK_updateFailed (s : Store) (w : String) (hs : storeOK s) :
    storeOK (updateFailed s w) := by
  unfold storeOK at hs ⊢
  intro p hp
  obtain ⟨q, hq, hpq⟩ := List.mem_map.mp hp
  cases hk : (q.1 == w) with
  | true =>
    rw [← hpq]
    simp only [updateFailed, hk, if_true]
    have := hs q hq
    unfold terminalTogether at this ⊢
    rcases this with ⟨h1, h2, h3⟩ | ⟨a, b, c, h1, h2, h3⟩
    · exact Or.inl ⟨h1, h2, h3⟩
    · exact Or.inr ⟨a, b, c, h1, h2, h3⟩
  | false =>
    rw [← hpq]
    simp only [updateFailed, hk, Bool.false_eq_true, if_false]
    exact hs q hq

theorem storeOK_processVerification (k : List Nat → String) (i : Nat) (s : Store)
    (w : String) (now : Nat) (o : Outcome) (hs : storeOK s) :
    storeOK (processVerification k i s w now o) := by
  cases o with
  | confirmed tx => exact storeOK_updateVerified _ _ _ _ _ hs
  | submissionError => exact storeOK_updateFailed _ _ hs
  | reverted => exact storeOK_updateFailed _ _ hs
  | timeout => exact storeOK_updateFailed _ _ hs

theorem storeOK_step (k : List Nat → String) (i : Nat) (s : Sys) (e : Ev)
    (hs : storeOK s.store) : storeOK (step k i s e).store := by
  cases e with
  | subRead rid w =>
    simp only [step]
    split
    · exact hs
    · split <;> exact hs
  | subWrite rid =>
    simp only [step]
    split
    · exact hs
    · split
      · exact hs
      · split
        · exact storeOK_insertPending _ _ hs
        · exact hs
  | procRun w now o =>
    simp only [step]
    split
    · exact storeOK_processVerification _ _ _ _ _ _ hs
    · exact hs

theorem storeOK_init : storeOK initSys.store := by
  unfold storeOK initSys
  intro p hp
  exact absurd hp (List.not_mem_nil p)

theorem storeOK_run (k : List Nat → String) (i : Nat) (evs : List Ev) :
    storeOK (run k i evs).store := by
  suffices hgen : ∀ (l : List Ev) (s : Sys), storeOK s.store →
      storeOK (l.foldl (step k i) s).store by
    exact hgen evs initSys storeOK_init
  intro l
  induction l with
  | nil => intro s hs; exact hs
  | cons e l ih => intro s hs; exact ih _ (storeOK_step k i s e hs)

theorem responses_step_procRun (k : List Nat → String) (i : Nat) (s : Sys)
    (w : String) (now : Nat) (o : Outcome) :
    (step k i s (Ev.procRun w now o)).responses = s.responses := by
  simp only [step]
  split <;> rfl

/-! Claim theorems. -/

/-- Claim C1: for every identity whose stored record is absent or in state
Failed, submit accepts the request (HTTP 202, a Pending record with the
other columns NULL); for every identity whose stored record is in state
Pending or Verified, submit rejects it with a 409 conflict reporting the
current state, and the stored record is unchanged by the rejection. -/
theorem C1_submit_state_gate (s : Store) (w : String) (hw : isAddress w = true) :
    ((dbLookup s w = none ∨ ∃ r, dbLookup s w = some r ∧ r.status = Status.Failed) →
      submitHandler s (some w) = (SubmitResp.accepted, insertPending s w, [w]) ∧
      SubmitResp.code SubmitResp.accepted = 202 ∧
      dbLookup (insertPending s w) w = some ⟨none, none, none, Status.Pending⟩) ∧
    ∀ r, dbLookup s w = some r → (r.status = Status.Pending ∨ r.status = Status.Verified) →
      submitHandler s (some w) = (SubmitResp.conflict r.status, s, []) ∧
      SubmitResp.code (SubmitResp.conflict r.status) = 409 := by
  have hne : (w == "") = false := by
    cases hq : (w == "") with
    | true =>
      have hw0 : w = "" := by simpa using hq
      rw [hw0] at hw
      exact absurd hw (by decide)
    | false => rfl
  constructor
  · rintro (hnone | ⟨r, hr, hst⟩)
    · refine ⟨?_, rfl, dbLookup_insertPending s w⟩
      simp [submitHandler, hne, hw, hnone, submitDecision]
    · refine ⟨?_, rfl, dbLookup_insertPending s w⟩
      simp [submitHandler, hne, hw, hr, hst, submitDecision]
  · rintro r hr (hst | hst) <;>
    · refine ⟨?_, rfl⟩
      simp [submitHandler, hne, hw, hr, hst, submitDecision]

/-- Witness for C1: a concrete wallet with a Failed record is accepted. -/
theorem C1_witness :
    isAddress addrA = true ∧
    submitHandler [(addrA, failedRec)] (some addrA) =
      (SubmitResp.accepted, insertPending [(addrA, failedRec)] addrA, [addrA]) :=
  ⟨by decide, (((C1_submit_state_gate [(addrA, failedRec)] addrA (by decide)).1)
      (Or.inr ⟨failedRec, rfl, rfl⟩)).1⟩

/-- Counterexample to C2 as stated: the two completion UPDATE statements
carry no status guard (WHERE wallet = ? only).  A record in state Failed —
not Pending — is transitioned to Verified by the completeVerified update,
and a record in state Verified is transitioned to Failed by the
completeFailed update; neither leaves the non-Pending record unchanged. -/
theorem C2_counterexample_unguarded_updates :
    dbLookup [(addrA, failedRec)] addrA = some failedRec ∧
    failedRec.status ≠ Status.Pending ∧
    updateVerified [(addrA, failedRec)] addrA ("h") 5 ("t") ≠ [(addrA, failedRec)] ∧
    dbLookup (updateVerified [(addrA, failedRec)] addrA ("h") 5 ("t")) addrA =
      some ⟨some ("h"), some 5, some ("t"), Status.Verified⟩ ∧
    verifiedRec.status ≠ Status.Pending ∧
    dbLookup (updateFailed [(addrA, verifiedRec)] addrA) addrA =
      some ⟨verifiedRec.hash, verifiedRec.expiry, verifiedRec.txHash, Status.Failed⟩ := by
  decide

/-- Claim C2 amended: completeVerified and completeFailed are UPDATEs keyed
only on the wallet: whenever a record for the identity exists they
transition it — whatever its current state, Pending or not — and only when
no record exists are they a no-op. -/
theorem C2_amended_completions_unconditional (s : Store) (w h : String) (e : Nat) (t : String) :
    (dbLookup s w = none → updateVerified s w h e t = s ∧ updateFailed s w = s) ∧
    ∀ r, dbLookup s w = some r →
      dbLookup (updateVerified s w h e t) w = some ⟨some h, some e, some t, Status.Verified⟩ ∧
      dbLookup (updateFailed s w) w = some ⟨r.hash, r.expiry, r.txHash, Status.Failed⟩ := by
  constructor
  · intro hn
    exact ⟨updateVerified_absent s w h e t hn, updateFailed_absent s w hn⟩
  · intro r hr
    constructor
    · rw [dbLookup_updateVerified, hr]
      rfl
    · rw [dbLookup_updateFailed, hr]
      rfl

/-- Witness for C2's amended theorem at concrete stores. -/
theorem C2_witness :
    (updateVerified [] addrA ("h") 5 ("t") = [] ∧ updateFailed [] addrA = []) ∧
    dbLookup (updateVerified [(addrA, failedRec)] addrA ("h") 5 ("t")) addrA =
      some ⟨some ("h"), some 5, some ("t"), Status.Verified⟩ :=
  ⟨(C2_amended_completions_unconditional [] addrA ("h") 5 ("t")).1 rfl,
   ((C2_amended_completions_unconditional [(addrA, failedRec)] addrA ("h") 5 ("t")).2
      failedRec rfl).1⟩

/-- Counterexample to C3 as stated ("exactly once, only during the
Pending → Verified transition"): after the reachable race in which two
submissions for the same wallet are both accepted, two processVerification
tasks are scheduled; the first confirmed task makes the record Verified,
and the second confirmed task runs its UPDATE on that record — which is
already Verified, not Pending — writing the terminal fields a second time
with new values. -/
theorem C3_counterexample_double_write :
    dbLookup (run kcSample 7
        (raceEvs ++ [Ev.procRun addrA 100 (Outcome.confirmed ("t1"))])).store addrA =
      some ⟨some ("digesthex"), some (100 + oneYear), some ("t1"), Status.Verified⟩ ∧
    dbLookup (run kcSample 7
        (raceEvs ++ [Ev.procRun addrA 100 (Outcome.confirmed ("t1")),
          Ev.procRun addrA 200 (Outcome.confirmed ("t2"))])).store addrA =
      some ⟨some ("digesthex"), some (200 + oneYear), some ("t2"), Status.Verified⟩ := by
  decide

/-- Claim C3 amended: the three attestation columns are written only by the
completeVerified UPDATE, which sets all of them together with the status in
one atomic statement; the completeFailed UPDATE never touches them; and in
every reachable store each record has the three fields all set or all
absent — never split.  (Under racing duplicate acceptances the Verified
UPDATE may however run more than once, and from a non-Pending record, so
"exactly once, only during Pending → Verified" holds only for
non-overlapping submissions.) -/
theorem C3_amended_terminal_fields_atomic (k : List Nat → String) (i : Nat) :
    (∀ s w h e t r, dbLookup s w = some r →
      dbLookup (updateVerified s w h e t) w = some ⟨some h, some e, some t, Status.Verified⟩) ∧
    (∀ s w r, dbLookup s w = some r →
      dbLookup (updateFailed s w) w = some ⟨r.hash, r.expiry, r.txHash, Status.Failed⟩) ∧
    ∀ evs w r, dbLookup (run k i evs).store w = some r → terminalTogether r := by
  refine ⟨?_, ?_, ?_⟩
  · intro s w h e t r hr
    rw [dbLookup_updateVerified, hr]
    rfl
  · intro s w r hr
    rw [dbLookup_updateFailed, hr]
    rfl
  · intro evs w r hr
    have hok := storeOK_run k i evs
    unfold storeOK at hok
    obtain ⟨key, hmem⟩ := dbLookup_mem _ _ _ hr
    exact hok (key, r) hmem

/-- Witness for C3's amended theorem: a concrete atomic write and a concrete
reachable record. -/
theorem C3_witness :
    dbLookup (updateVerified [(addrA, pendingRec)] addrA ("h") 5 ("t")) addrA =
      some ⟨some ("h"), some 5, some ("t"), Status.Verified⟩ ∧
    terminalTogether pendingRec :=
  ⟨(C3_amended_terminal_fields_atomic kcSample 7).1
      [(addrA, pendingRec)] addrA ("h") 5 ("t") pendingRec rfl,
   (C3_amended_terminal_fields_atomic kcSample 7).2.2
      [Ev.subRead 0 addrA, Ev.subWrite 0] addrA pendingRec (by decide)⟩

/-- Claim C4: for a wallet with a stored record, every outcome of the
asynchronous processing ends with the record out of Pending — Verified on a
confirmed transaction, Failed on every thrown error (submission rejection,
revert, timeout) — and running a processVerification task never adds or
changes any response already sent to a submitting caller. -/
theorem C4_async_failures_to_failed (k : List Nat → String) (i : Nat) :
    (∀ s w now o r, dbLookup s w = some r →
      ∃ rr, dbLookup (processVerification k i s w now o) w = some rr ∧
        rr.status ≠ Status.Pending ∧
        (∀ tx, o = Outcome.confirmed tx → rr.status = Status.Verified) ∧
        ((∀ tx, o ≠ Outcome.confirmed tx) → rr.status = Status.Failed)) ∧
    ∀ evs w now o,
      (run k i (evs ++ [Ev.procRun w now o])).responses = (run k i evs).responses := by
  constructor
  · intro s w now o r hr
    cases o with
    | confirmed tx =>
      refine ⟨⟨some (buildDigest k i (hexVal w) (now + oneYear)), some (now + oneYear),
        some tx, Status.Verified⟩, ?_, fun h => Status.noConfusion h, fun tx2 _ => rfl,
        fun hcon => absurd rfl (hcon tx)⟩
      show dbLookup (updateVerified s w _ _ tx) w = _
      rw [dbLookup_updateVerified, hr]
      rfl
    | submissionError =>
      refine ⟨⟨r.hash, r.expiry, r.txHash, Status.Failed⟩, ?_, fun h => Status.noConfusion h, ?_,
        fun _ => rfl⟩
      · show dbLookup (updateFailed s w) w = _
        rw [dbLookup_updateFailed, hr]
        rfl
      · intro tx htx
        exact absurd htx (by simp)
    | reverted =>
      refine ⟨⟨r.hash, r.expiry, r.txHash, Status.Failed⟩, ?_, fun h => Status.noConfusion h, ?_,
        fun _ => rfl⟩
      · show dbLookup (updateFailed s w) w = _
        rw [dbLookup_updateFailed, hr]
        rfl
      · intro tx htx
        exact absurd htx (by simp)
    | timeout =>
      refine ⟨⟨r.hash, r.expiry, r.txHash, Status.Failed⟩, ?_, fun h => Status.noConfusion h, ?_,
        fun _ => rfl⟩
      · show dbLookup (updateFailed s w) w = _
        rw [dbLookup_updateFailed, hr]
        rfl
      · intro tx htx
        exact absurd htx (by simp)
  · intro evs w now o
    rw [run, run, List.foldl_append]
    exact responses_step_procRun k i _ w now o

/-- Witness for C4: a timeout on a Pending record ends Failed. -/
theorem C4_witness :
    ∃ rr, dbLookup (processVerification kcSample 7 [(addrA, pendingRec)] addrA 100
        Outcome.timeout) addrA = some rr ∧
      rr.status ≠ Status.Pending ∧
      (∀ tx, Outcome.timeout = Outcome.confirmed tx → rr.status = Status.Verified) ∧
      ((∀ tx, Outcome.timeout ≠ Outcome.confirmed tx) → rr.status = Status.Failed) :=
  (C4_async_failures_to_failed kcSample 7).1 [(addrA, pendingRec)] addrA 100
    Outcome.timeout pendingRec rfl

/-- Claim C5, evaluated at the failing interleaving: two submit requests for
the same wallet whose SELECTs both run before either callback's INSERT
(the check and the set are separate queued statements, not an atomic
check-and-set) both receive 202 acceptance, and two processing tasks are
scheduled for the one identity. -/
theorem C5_race_both_accepted :
    (run kcSample 7 raceEvs).responses =
      [(1, SubmitResp.accepted), (0, SubmitResp.accepted)] ∧
    SubmitResp.code SubmitResp.accepted = 202 ∧
    (run kcSample 7 raceEvs).scheduled = [addrA, addrA] := by
  decide

/-- Claim C6: digest construction is deterministic and pure — identical
inputs give an identical digest — and the digest is the keccak-256 hash of
the order-sensitive fixed-width (72-byte) packed encoding of the ordered
tuple (issuer identity, subject identity, expiry); order-sensitivity is
witnessed by the encoding determining the tuple for in-range fields. -/
theorem C6_digest_deterministic_hash_of_encoding (keccak : List Nat → String)
    (i1 s1 e1 i2 s2 e2 : Nat) :
    buildDigest keccak i1 s1 e1 = keccak (solidityPacked i1 s1 e1) ∧
    (solidityPacked i1 s1 e1).length = 72 ∧
    (i1 = i2 → s1 = s2 → e1 = e2 →
      buildDigest keccak i1 s1 e1 = buildDigest keccak i2 s2 e2) ∧
    (i1 < 2 ^ 160 → s1 < 2 ^ 160 → e1 < 2 ^ 256 →
      i2 < 2 ^ 160 → s2 < 2 ^ 160 → e2 < 2 ^ 256 →
      solidityPacked i1 s1 e1 = solidityPacked i2 s2 e2 →
      i1 = i2 ∧ s1 = s2 ∧ e1 = e2) := by
  refine ⟨rfl, ?_, ?_, solidityPacked_inj i1 s1 e1 i2 s2 e2⟩
  · simp [solidityPacked, List.length_append, beBytes_length]
  · intro h1 h2 h3
    rw [h1, h2, h3]

/-- Witness for C6 at concrete field values. -/
theorem C6_witness :
    (1 : Nat) < 2 ^ 160 ∧ (3 : Nat) < 2 ^ 256 ∧
    buildDigest kcSample 1 2 3 = kcSample (solidityPacked 1 2 3) ∧
    (1 = 1 ∧ 2 = 2 ∧ 3 = 3) :=
  ⟨by norm_num, by norm_num,
   (C6_digest_deterministic_hash_of_encoding kcSample 1 2 3 1 2 3).1,
   (C6_digest_deterministic_hash_of_encoding kcSample 1 2 3 1 2 3).2.2.2
     (by norm_num) (by norm_num) (by norm_num) (by norm_num) (by norm_num) (by norm_num) rfl⟩

/-- Claim C7: for every syntactically malformed identity string (and for a
missing body field), both the submit operation and the status operation
return 400 without reading or writing the Status Store: the store is
returned unchanged, nothing is scheduled, and the response is the same
whatever the store contents — no record access influences it. -/
theorem C7_invalid_identity_no_store_access (s s2 : Store) (w : String)
    (hw : isAddress w = false) :
    submitHandler s (some w) = (SubmitResp.badRequest, s, []) ∧
    submitHandler s none = (SubmitResp.badRequest, s, []) ∧
    statusHandler s w = StatusResp.badRequest ∧
    (submitHandler s (some w)).1 = (submitHandler s2 (some w)).1 ∧
    statusHandler s w = statusHandler s2 w ∧
    SubmitResp.code SubmitResp.badRequest = 400 := by
  have hsub : ∀ st : Store, submitHandler st (some w) = (SubmitResp.badRequest, st, []) := by
    intro st
    simp [submitHandler, hw]
  have hstat : ∀ st : Store, statusHandler st w = StatusResp.badRequest := by
    intro st
    simp [statusHandler, hw]
  refine ⟨hsub s, rfl, hstat s, ?_, ?_, rfl⟩
  · rw [hsub s, hsub s2]
  · rw [hstat s, hstat s2]

/-- Witness for C7 at a concrete malformed identity and two stores. -/
theorem C7_witness :
    isAddress ("nope") = false ∧
    submitHandler [] (some ("nope")) = (SubmitResp.badRequest, [], []) ∧
    statusHandler [(addrA, failedRec)] ("nope") = StatusResp.badRequest :=
  ⟨by decide,
   (C7_invalid_identity_no_store_access [] [(addrA, failedRec)] ("nope") (by decide)).1,
   (C7_invalid_identity_no_store_access [(addrA, failedRec)] [] ("nope") (by decide)).2.2.1⟩

/-- Claim C8: for every valid identity the status operation is a pure read
of the store (it returns only a response, changes nothing and touches no
ledger): an absent record reports state None; a present record reports the
stored state — never the string None, so Failed is never conflated with
never-submitted — together with expiry and transaction reference whenever
they are present (and nonzero / nonempty, the JavaScript `|| null`
truthiness on the two columns, which no reachable stored value triggers). -/
theorem C8_status_pure_read (s : Store) (w : String) (hw : isAddress w = true) :
    (dbLookup s w = none → statusHandler s w = StatusResp.ok ⟨("None"), none, none⟩) ∧
    ∀ r, dbLookup s w = some r →
      statusHandler s w =
        StatusResp.ok ⟨statusString r.status, orNullNat r.expiry, orNullStr r.txHash⟩ ∧
      statusString r.status ≠ ("None") ∧
      (∀ e, r.expiry = some e → e ≠ 0 → orNullNat r.expiry = some e) ∧
      ∀ t, r.txHash = some t → t ≠ ("") → orNullStr r.txHash = some t := by
  constructor
  · intro hn
    simp [statusHandler, hw, hn]
  · intro r hr
    refine ⟨by simp [statusHandler, hw, hr], ?_, ?_, ?_⟩
    · cases r.status <;> decide
    · intro e he hne
      simp [orNullNat, he, hne]
    · intro t ht htne
      simp [orNullStr, ht, htne]

/-- Witness for C8 at a concrete Verified record. -/
theorem C8_witness :
    isAddress addrA = true ∧
    statusHandler [(addrA, verifiedRec)] addrA =
      StatusResp.ok ⟨statusString verifiedRec.status, orNullNat verifiedRec.expiry,
        orNullStr verifiedRec.txHash⟩ ∧
    statusString verifiedRec.status ≠ ("None") :=
  ⟨by decide,
   (((C8_status_pure_read [(addrA, verifiedRec)] addrA (by decide)).2 verifiedRec rfl)).1,
   (((C8_status_pure_read [(addrA, verifiedRec)] addrA (by decide)).2 verifiedRec rfl)).2.1⟩

/-- Claim C9: on a confirmed transaction the record's expiry is set to the
processing-time clock plus the fixed one-year window (365*24*60*60 seconds),
written only by the Pending → Verified UPDATE; the failure UPDATE leaves the
expiry column as it was, and an accepted submission's INSERT leaves it
NULL. -/
theorem C9_expiry_one_year_only_on_verified (k : List Nat → String) (i : Nat)
    (s : Store) (w : String) (now : Nat) (tx : String) :
    oneYear = 365 * 24 * 60 * 60 ∧
    (∀ r, dbLookup s w = some r →
      dbLookup (processVerification k i s w now (Outcome.confirmed tx)) w =
        some ⟨some (buildDigest k i (hexVal w) (now + oneYear)), some (now + oneYear),
          some tx, Status.Verified⟩) ∧
    (∀ o, (∀ t2, o ≠ Outcome.confirmed t2) → ∀ r, dbLookup s w = some r →
      dbLookup (processVerification k i s w now o) w =
        some ⟨r.hash, r.expiry, r.txHash, Status.Failed⟩) ∧
    dbLookup (insertPending s w) w = some ⟨none, none, none, Status.Pending⟩ := by
  refine ⟨rfl, ?_, ?_, dbLookup_insertPending s w⟩
  · intro r hr
    show dbLookup (updateVerified s w _ _ tx) w = _
    rw [dbLookup_updateVerified, hr]
    rfl
  · intro o ho r hr
    cases o with
    | confirmed t2 => exact absurd rfl (ho t2)
    | submissionError =>
      show dbLookup (updateFailed s w) w = _
      rw [dbLookup_updateFailed, hr]
      rfl
    | reverted =>
      show dbLookup (updateFailed s w) w = _
      rw [dbLookup_updateFailed, hr]
      rfl
    | timeout =>
      show dbLookup (updateFailed s w) w = _
      rw [dbLookup_updateFailed, hr]
      rfl

/-- Witness for C9 at a concrete Pending record and clock. -/
theorem C9_witness :
    dbLookup (processVerification kcSample 7 [(addrA, pendingRec)] addrA 100
        (Outcome.confirmed ("t1"))) addrA =
      some ⟨some (buildDigest kcSample 7 (hexVal addrA) (100 + oneYear)),
        some (100 + oneYear), some ("t1"), Status.Verified⟩ :=
  (C9_expiry_one_year_only_on_verified kcSample 7 [(addrA, pendingRec)] addrA 100
    ("t1")).2.1 pendingRec rfl

/-- Counterexample to C10 as stated: when the backend responds with a status
field holding the empty string, the function returns the string Unknown and
not the backend's status string (the code tests `response.data.status`
for truthiness, not presence). -/
theorem C10_counterexample_empty_status :
    isAddress addrA = true ∧
    getVerificationStatus addrA (some (some (""))) = ("Unknown") ∧
    getVerificationStatus addrA (some (some (""))) ≠ ("") := by
  decide

/-- Claim C10 amended: getVerificationStatus is total (the embedding is a
function; every thrown error is caught); it returns None when the wallet
address is syntactically invalid or the backend request fails for any
reason, Unknown when the backend responds without a status field or with an
empty (falsy) status string, and otherwise the backend's nonempty status
string. -/
theorem C10_amended_frontend_status_total (w : String) (b : Option (Option String)) :
    (isAddress w = false → getVerificationStatus w b = ("None")) ∧
    (b = none → getVerificationStatus w b = ("None")) ∧
    (b = some none → getVerificationStatus w b = ("None") ∨
      getVerificationStatus w b = ("Unknown")) ∧
    (isAddress w = true → b = some none → getVerificationStatus w b = ("Unknown")) ∧
    (isAddress w = true → b = some (some ("")) → getVerificationStatus w b = ("Unknown")) ∧
    ∀ t, isAddress w = true → b = some (some t) → t ≠ ("") →
      getVerificationStatus w b = t := by
  refine ⟨?_, ?_, ?_, ?_, ?_, ?_⟩
  · intro hw
    simp [getVerificationStatus, hw]
  · intro hb
    subst hb
    cases hw : isAddress w <;> simp [getVerificationStatus, hw]
  · intro hb
    subst hb
    cases hw : isAddress w <;> simp [getVerificationStatus, hw]
  · intro hw hb
    subst hb
    simp [getVerificationStatus, hw]
  · intro hw hb
    subst hb
    simp [getVerificationStatus, hw]
  · intro t hw hb ht
    subst hb
    simp [getVerificationStatus, hw, ht]

/-- Witness for C10's amended theorem at concrete inputs. -/
theorem C10_witness :
    isAddress addrA = true ∧
    getVerificationStatus addrA none = ("None") ∧
    getVerificationStatus addrA (some (some ("Verified"))) = ("Verified") :=
  ⟨by decide,
   (C10_amended_frontend_status_total addrA none).2.1 rfl,
   (C10_amended_frontend_status_total addrA (some (some ("Verified")))).2.2.2.2.2
     ("Verified") (by decide) rfl (by decide)⟩

end KycVault
